import Mathlib

/-!
Verification of the oauth-user-management repository's reconciliation ("Sync
Hydra") trigger surface and of the mock API's scope/role bookkeeping, against
its natural-language specification.

The trigger surface lives in `management-ui/src/components/Layout/Layout.tsx`
(`handleSyncHydra`, the `Resync Hydra` button, the `isSyncing`/`syncResult`
state).  The scope and role operations live in
`management-ui/src/services/mockApi.ts`.  The Diff Engine and Apply Executor
exist only in the specification (spec.md sections 4.3 and 4.4); they are
modelled from the spec where a claim needs them.
-/

/-- Modelled from the spec: the serialized run summary returned by the sync
endpoint (`api.syncHydra`), whose implementation is not part of the sources;
spec section 6 requires per-entity-type created/updated/deleted/failed counts
for both clients and scopes.  `Layout.tsx` consumes the three
`clients_created`/`clients_updated`/`clients_deleted` fields of
`result.summary`. -/
structure SyncSummary where
  clients_created : Nat
  clients_updated : Nat
  clients_deleted : Nat
  clients_failed : Nat
  scopes_created : Nat
  scopes_updated : Nat
  scopes_deleted : Nat
  scopes_failed : Nat
deriving DecidableEq, Repr

/-- The three ways the awaited `api.syncHydra()` call can settle, as consumed
by `handleSyncHydra`: resolved with `success = true` and a summary, resolved
with `success = false` and `details.errors`, or rejected (`thrown none` models
a rejection whose value is not an `Error` instance). -/
inductive SyncOutcome where
  | ok (summary : SyncSummary)
  | err (errors : List String)
  | thrown (message : Option String)
deriving DecidableEq, Repr

/-- The `syncResult` record set by `handleSyncHydra`
(`{ success: boolean; message: string }`). -/
structure SyncResult where
  success : Bool
  message : String
deriving DecidableEq, Repr

/-- `summary.clients_created + summary.clients_updated + summary.clients_deleted`
as computed in `handleSyncHydra` (Layout.tsx line 68). -/
def totalChanges (s : SyncSummary) : Nat :=
  s.clients_created + s.clients_updated + s.clients_deleted

/-- The `syncResult` produced by the body of `handleSyncHydra` (Layout.tsx
lines 63-91) for each way the sync call settles. -/
def handleSyncHydraResult : SyncOutcome → SyncResult
  | .ok s =>
    if totalChanges s = 0 then
      { success := true, message := "Hydra is already in sync with the database" }
    else
      { success := true,
        message := "Sync completed: " ++ toString s.clients_created ++ " created, "
          ++ toString s.clients_updated ++ " updated, "
          ++ toString s.clients_deleted ++ " deleted" }
  | .err errors =>
    { success := false,
      message := "Sync completed with errors: " ++ String.intercalate ", " errors }
  | .thrown message =>
    { success := false,
      message := "Sync failed: " ++ message.getD "Unknown error" }

/-- The Layout component state the sync trigger manipulates: `isSyncing` and
`syncResult` (Layout.tsx lines 46-50). -/
structure SyncUIState where
  isSyncing : Bool
  syncResult : Option SyncResult
deriving DecidableEq, Repr

/-- The `disabled` prop of the Resync Hydra button (Layout.tsx line 165):
`disabled={isSyncing}`. -/
def syncButtonDisabled (st : SyncUIState) : Bool :=
  st.isSyncing

/-- Effect of a click on the Resync Hydra button.  A disabled button ignores
the click (state unchanged, nothing queued); otherwise `handleSyncHydra` runs
its synchronous prefix: `setIsSyncing(true); setSyncResult(null)` before
awaiting the sync call. -/
def clickResync (st : SyncUIState) : SyncUIState :=
  if syncButtonDisabled st then st
  else { isSyncing := true, syncResult := none }

/-- Effect of the awaited sync call settling with outcome `o`: the
`try`/`catch` sets `syncResult` on every path and the `finally` clears
`isSyncing` (Layout.tsx lines 63-94). -/
def syncSettle (o : SyncOutcome) (_st : SyncUIState) : SyncUIState :=
  { isSyncing := false, syncResult := some (handleSyncHydraResult o) }

/-- C1: a successful sync response with zero total client changes is reported
as a success with the already-in-sync message, and a successful response with
at least one change is reported as a success whose message carries the
created/updated/deleted counts. -/
theorem sync_success_report (s : SyncSummary) :
    (totalChanges s = 0 →
      handleSyncHydraResult (.ok s) =
        { success := true, message := "Hydra is already in sync with the database" }) ∧
    (totalChanges s ≠ 0 →
      handleSyncHydraResult (.ok s) =
        { success := true,
          message := "Sync completed: " ++ toString s.clients_created ++ " created, "
            ++ toString s.clients_updated ++ " updated, "
            ++ toString s.clients_deleted ++ " deleted" }) := by
  constructor
  · intro h
    simp [handleSyncHydraResult, h]
  · intro h
    simp [handleSyncHydraResult, h]

theorem sync_success_report_witness :
    (handleSyncHydraResult (.ok ⟨0, 0, 0, 0, 0, 0, 0, 0⟩) =
      { success := true, message := "Hydra is already in sync with the database" }) ∧
    (handleSyncHydraResult (.ok ⟨2, 1, 0, 0, 0, 0, 0, 0⟩) =
      { success := true, message := "Sync completed: 2 created, 1 updated, 0 deleted" }) :=
  ⟨(sync_success_report ⟨0, 0, 0, 0, 0, 0, 0, 0⟩).1 (by decide),
   (sync_success_report ⟨2, 1, 0, 0, 0, 0, 0, 0⟩).2 (by decide)⟩

/-- C2: every settled outcome of the sync call produces a displayed result; a
response with `success = false` yields a failure carrying the joined error
list, a rejection yields a failure carrying the thrown message (or the
unknown-error fallback), and no outcome leaves `syncResult` unset or reports a
remote failure as a success. -/
theorem sync_failure_report (es : List String) (m : String) (o : SyncOutcome)
    (st : SyncUIState) :
    handleSyncHydraResult (.err es) =
      { success := false,
        message := "Sync completed with errors: " ++ String.intercalate ", " es } ∧
    handleSyncHydraResult (.thrown (some m)) =
      { success := false, message := "Sync failed: " ++ m } ∧
    handleSyncHydraResult (.thrown none) =
      { success := false, message := "Sync failed: Unknown error" } ∧
    (syncSettle o st).syncResult = some (handleSyncHydraResult o) := by
  refine ⟨rfl, rfl, rfl, rfl⟩

/-- C4: single-flight at the trigger surface.  Starting a sync from a
non-syncing state sets `isSyncing`, which disables the button; a click while a
run is in flight leaves the state exactly as it was (rejected, nothing
queued); `isSyncing` is cleared only when the call settles. -/
theorem sync_single_flight (st : SyncUIState) (h : st.isSyncing = false) :
    (clickResync st).isSyncing = true ∧
    syncButtonDisabled (clickResync st) = true ∧
    clickResync (clickResync st) = clickResync st ∧
    (∀ st', st'.isSyncing = true → clickResync st' = st') ∧
    (∀ o, (syncSettle o (clickResync st)).isSyncing = false) := by
  refine ⟨?_, ?_, ?_, ?_, fun o => rfl⟩
  · simp [clickResync, syncButtonDisabled, h]
  · simp [clickResync, syncButtonDisabled, h]
  · simp [clickResync, syncButtonDisabled, h]
  · intro st' h'
    simp [clickResync, syncButtonDisabled, h']

theorem sync_single_flight_witness :
    (clickResync ⟨false, none⟩).isSyncing = true ∧
    syncButtonDisabled (clickResync ⟨false, none⟩) = true ∧
    clickResync (clickResync ⟨false, none⟩) = clickResync ⟨false, none⟩ ∧
    (∀ st', st'.isSyncing = true → clickResync st' = st') ∧
    (∀ o, (syncSettle o (clickResync ⟨false, none⟩)).isSyncing = false) :=
  sync_single_flight ⟨false, none⟩ rfl

/-- C3, counterexample: a successful response whose summary reports scope
changes and failures but no client changes is displayed as
"already in sync" — the total-change computation and the completion message
use only the three client counts, ignoring scope and failed counts. -/
theorem sync_scope_counts_ignored :
    handleSyncHydraResult (.ok ⟨0, 0, 0, 3, 2, 1, 1, 4⟩) =
      { success := true, message := "Hydra is already in sync with the database" } ∧
    handleSyncHydraResult (.ok ⟨1, 0, 0, 0, 5, 0, 0, 0⟩) =
      { success := true, message := "Sync completed: 1 created, 0 updated, 0 deleted" } := by
  refine ⟨rfl, rfl⟩

/-- C3, amended: the displayed sync result is a function of the three client
counts alone; two summaries agreeing on `clients_created`, `clients_updated`
and `clients_deleted` produce the same displayed result whatever their scope
or failed counts. -/
theorem sync_report_depends_only_on_client_counts (s t : SyncSummary)
    (h1 : s.clients_created = t.clients_created)
    (h2 : s.clients_updated = t.clients_updated)
    (h3 : s.clients_deleted = t.clients_deleted) :
    handleSyncHydraResult (.ok s) = handleSyncHydraResult (.ok t) := by
  simp [handleSyncHydraResult, totalChanges, h1, h2, h3]

theorem sync_report_depends_only_on_client_counts_witness :
    handleSyncHydraResult (.ok ⟨1, 2, 3, 0, 0, 0, 0, 0⟩) =
      handleSyncHydraResult (.ok ⟨1, 2, 3, 9, 7, 6, 5, 4⟩) :=
  sync_report_depends_only_on_client_counts
    ⟨1, 2, 3, 0, 0, 0, 0, 0⟩ ⟨1, 2, 3, 9, 7, 6, 5, 4⟩ rfl rfl rfl

/-- Modelled from the spec: the ChangeSet of the Diff Engine (spec sections 3
and 4.3), which is not part of the sources (only the TODO note and the spec
describe it).  Each bag holds the identities classified into it. -/
structure ChangeSet (K : Type) where
  toCreate : List K
  toUpdate : List K
  toDelete : List K
  unchanged : List K
deriving DecidableEq, Repr

/-- The identities (keys) of an association list representing a
`map[identity]CanonicalEntity`. -/
def keysOf {K V : Type} (m : List (K × V)) : List K :=
  m.map Prod.fst

/-- First-binding lookup in an association list. -/
def alookup {K V : Type} [DecidableEq K] (k : K) : List (K × V) → Option V
  | [] => none
  | (k', v) :: rest => if k' = k then some v else alookup k rest

/-- Modelled from the spec: `diff(desired, observed) -> ChangeSet` (spec
section 4.3) — for every key in the union of both maps, desired-only goes to
`toCreate`, present in both with unequal canonical values to `toUpdate`,
observed-only to `toDelete`, present in both and equal to `unchanged`. -/
def diff {K V : Type} [DecidableEq K] [DecidableEq V]
    (desired observed : List (K × V)) : ChangeSet K :=
  { toCreate := (keysOf desired).filter fun k => decide (k ∉ keysOf observed)
    toUpdate := (keysOf desired).filter fun k =>
      decide (k ∈ keysOf observed ∧ alookup k desired ≠ alookup k observed)
    toDelete := (keysOf observed).filter fun k => decide (k ∉ keysOf desired)
    unchanged := (keysOf desired).filter fun k =>
      decide (k ∈ keysOf observed ∧ alookup k desired = alookup k observed) }

/-- How many of the four ChangeSet bags contain the key `k`. -/
def bagsContaining {K : Type} [DecidableEq K] (cs : ChangeSet K) (k : K) : Nat :=
  (if k ∈ cs.toCreate then 1 else 0) + (if k ∈ cs.toUpdate then 1 else 0)
    + (if k ∈ cs.toDelete then 1 else 0) + (if k ∈ cs.unchanged then 1 else 0)

/-- C5: for every pair of maps and every key in the union of their key sets,
the diff classifies the key by the four defining conditions
(desired-only/both-unequal/observed-only/both-equal), and exactly one of the
four bags contains it. -/
theorem diff_partition {K V : Type} [DecidableEq K] [DecidableEq V]
    (desired observed : List (K × V)) (k : K)
    (hk : k ∈ keysOf desired ∨ k ∈ keysOf observed) :
    (k ∈ (diff desired observed).toCreate ↔
      k ∈ keysOf desired ∧ k ∉ keysOf observed) ∧
    (k ∈ (diff desired observed).toUpdate ↔
      (k ∈ keysOf desired ∧ k ∈ keysOf observed) ∧
        alookup k desired ≠ alookup k observed) ∧
    (k ∈ (diff desired observed).toDelete ↔
      k ∈ keysOf observed ∧ k ∉ keysOf desired) ∧
    (k ∈ (diff desired observed).unchanged ↔
      (k ∈ keysOf desired ∧ k ∈ keysOf observed) ∧
        alookup k desired = alookup k observed) ∧
    bagsContaining (diff desired observed) k = 1 := by
  have hc : k ∈ (diff desired observed).toCreate ↔
      k ∈ keysOf desired ∧ k ∉ keysOf observed := by
    simp [diff, List.mem_filter]
  have hu : k ∈ (diff desired observed).toUpdate ↔
      (k ∈ keysOf desired ∧ k ∈ keysOf observed) ∧
        alookup k desired ≠ alookup k observed := by
    simp [diff, List.mem_filter]
    tauto
  have hd : k ∈ (diff desired observed).toDelete ↔
      k ∈ keysOf observed ∧ k ∉ keysOf desired := by
    simp [diff, List.mem_filter]
  have hn : k ∈ (diff desired observed).unchanged ↔
      (k ∈ keysOf desired ∧ k ∈ keysOf observed) ∧
        alookup k desired = alookup k observed := by
    simp [diff, List.mem_filter]
    tauto
  refine ⟨hc, hu, hd, hn, ?_⟩
  by_cases h1 : k ∈ keysOf desired
  · by_cases h2 : k ∈ keysOf observed
    · by_cases h3 : alookup k desired = alookup k observed
      · simp [bagsContaining, hc, hu, hd, hn, h1, h2, h3]
      · simp [bagsContaining, hc, hu, hd, hn, h1, h2, h3]
    · simp [bagsContaining, hc, hu, hd, hn, h1, h2]
  · rcases hk with hk | hk
    · exact absurd hk h1
    · simp [bagsContaining, hc, hu, hd, hn, h1, hk]

theorem diff_partition_witness :
    (("a" : String) ∈ keysOf [("a", 1), ("b", 2), ("c", 3)] ∨
      ("a" : String) ∈ keysOf ([("b", 9), ("c", 3), ("d", 4)] : List (String × Nat))) ∧
    bagsContaining (diff [("a", 1), ("b", 2), ("c", 3)]
      ([("b", 9), ("c", 3), ("d", 4)] : List (String × Nat))) "a" = 1 :=
  ⟨by decide,
   (diff_partition [("a", 1), ("b", 2), ("c", 3)]
      ([("b", 9), ("c", 3), ("d", 4)] : List (String × Nat)) "a" (by decide)).2.2.2.2⟩

/-- Modelled from the spec: the remote operations the Apply Executor issues
(spec section 4.4), tagged with the identity they act on. -/
inductive ApplyOp where
  | scopeCreate (name : String)
  | scopeUpdate (name : String)
  | clientCreate (id : String)
  | clientUpdate (id : String)
  | clientDelete (id : String)
  | scopeDelete (name : String)
deriving DecidableEq, Repr

/-- The phase an operation belongs to, in the Apply Executor's fixed order:
scope creates/updates (0), client creates/updates (1), client deletes (2),
scope deletes (3). -/
def ApplyOp.phase : ApplyOp → Nat
  | .scopeCreate _ => 0
  | .scopeUpdate _ => 0
  | .clientCreate _ => 1
  | .clientUpdate _ => 1
  | .clientDelete _ => 2
  | .scopeDelete _ => 3

/-- A ChangeSet for both entity types, as handed to the Apply Executor. -/
structure FullChangeSet where
  scopes : ChangeSet String
  clients : ChangeSet String
deriving DecidableEq, Repr

/-- Modelled from the spec: the order in which the Apply Executor issues
operations (spec section 4.4): scope creates, scope updates, client creates,
client updates, client deletes, scope deletes. -/
def applyOrder (cs : FullChangeSet) : List ApplyOp :=
  cs.scopes.toCreate.map .scopeCreate ++ cs.scopes.toUpdate.map .scopeUpdate
    ++ cs.clients.toCreate.map .clientCreate ++ cs.clients.toUpdate.map .clientUpdate
    ++ cs.clients.toDelete.map .clientDelete ++ cs.scopes.toDelete.map .scopeDelete

lemma pairwise_phase_of_const {p : Nat} (l : List ApplyOp)
    (h : ∀ a ∈ l, ApplyOp.phase a = p) :
    l.Pairwise fun a b => a.phase ≤ b.phase := by
  induction l with
  | nil => exact .nil
  | cons a l ih =>
    refine .cons (fun b hb => ?_) (ih fun x hx => h x (by simp [hx]))
    rw [h a (by simp), h b (by simp [hb])]

lemma applyOrder_phase_sorted (cs : FullChangeSet) :
    (applyOrder cs).Pairwise fun a b => a.phase ≤ b.phase := by
  unfold applyOrder
  have hmap : ∀ (f : String → ApplyOp) (p : Nat), (∀ s, (f s).phase = p) →
      ∀ (l : List String), ∀ a ∈ l.map f, ApplyOp.phase a = p := by
    intro f p hf l a ha
    rcases List.mem_map.1 ha with ⟨x, _, rfl⟩
    exact hf x
  have h1 := hmap ApplyOp.scopeCreate 0 (fun _ => rfl) cs.scopes.toCreate
  have h2 := hmap ApplyOp.scopeUpdate 0 (fun _ => rfl) cs.scopes.toUpdate
  have h3 := hmap ApplyOp.clientCreate 1 (fun _ => rfl) cs.clients.toCreate
  have h4 := hmap ApplyOp.clientUpdate 1 (fun _ => rfl) cs.clients.toUpdate
  have h5 := hmap ApplyOp.clientDelete 2 (fun _ => rfl) cs.clients.toDelete
  have h6 := hmap ApplyOp.scopeDelete 3 (fun _ => rfl) cs.scopes.toDelete
  have q12 := List.pairwise_append.2 ⟨pairwise_phase_of_const _ h1,
    pairwise_phase_of_const _ h2, fun a ha b hb => by rw [h1 a ha, h2 b hb]⟩
  have b12 : ∀ a ∈ cs.scopes.toCreate.map ApplyOp.scopeCreate
      ++ cs.scopes.toUpdate.map ApplyOp.scopeUpdate, ApplyOp.phase a ≤ 0 := by
    intro a ha
    rcases List.mem_append.1 ha with h | h
    · rw [h1 a h]
    · rw [h2 a h]
  have q3 := List.pairwise_append.2 ⟨q12, pairwise_phase_of_const _ h3,
    fun a ha b hb => by rw [h3 b hb]; exact (b12 a ha).trans (by omega)⟩
  have b3 : ∀ a ∈ cs.scopes.toCreate.map ApplyOp.scopeCreate
      ++ cs.scopes.toUpdate.map ApplyOp.scopeUpdate
      ++ cs.clients.toCreate.map ApplyOp.clientCreate, ApplyOp.phase a ≤ 1 := by
    intro a ha
    rcases List.mem_append.1 ha with h | h
    · exact (b12 a h).trans (by omega)
    · rw [h3 a h]
  have q4 := List.pairwise_append.2 ⟨q3, pairwise_phase_of_const _ h4,
    fun a ha b hb => by rw [h4 b hb]; exact b3 a ha⟩
  have b4 : ∀ a ∈ cs.scopes.toCreate.map ApplyOp.scopeCreate
      ++ cs.scopes.toUpdate.map ApplyOp.scopeUpdate
      ++ cs.clients.toCreate.map ApplyOp.clientCreate
      ++ cs.clients.toUpdate.map ApplyOp.clientUpdate, ApplyOp.phase a ≤ 1 := by
    intro a ha
    rcases List.mem_append.1 ha with h | h
    · exact b3 a h
    · rw [h4 a h]
  have q5 := List.pairwise_append.2 ⟨q4, pairwise_phase_of_const _ h5,
    fun a ha b hb => by rw [h5 b hb]; exact (b4 a ha).trans (by omega)⟩
  have b5 : ∀ a ∈ cs.scopes.toCreate.map ApplyOp.scopeCreate
      ++ cs.scopes.toUpdate.map ApplyOp.scopeUpdate
      ++ cs.clients.toCreate.map ApplyOp.clientCreate
      ++ cs.clients.toUpdate.map ApplyOp.clientUpdate
      ++ cs.clients.toDelete.map ApplyOp.clientDelete, ApplyOp.phase a ≤ 2 := by
    intro a ha
    rcases List.mem_append.1 ha with h | h
    · exact (b4 a h).trans (by omega)
    · rw [h5 a h]
  exact List.pairwise_append.2 ⟨q5, pairwise_phase_of_const _ h6,
    fun a ha b hb => by rw [h6 b hb]; exact (b5 a ha).trans (by omega)⟩

/-- C7: operations of a strictly later Apply Executor phase are issued
strictly later: if the trace holds `a` at position `i` and `b` at position `j`
with `a.phase < b.phase` then `i < j`.  In particular every scope create
(phase 0) for a new scope S precedes every client create (phase 1) for a new
client C referencing it. -/
theorem apply_executor_ordering (cs : FullChangeSet) (i j : Nat) (a b : ApplyOp)
    (ha : (applyOrder cs)[i]? = some a) (hb : (applyOrder cs)[j]? = some b)
    (hab : a.phase < b.phase) : i < j := by
  rcases List.getElem?_eq_some.1 ha with ⟨hi, rfl⟩
  rcases List.getElem?_eq_some.1 hb with ⟨hj, rfl⟩
  have hs := List.pairwise_iff_getElem.1 (applyOrder_phase_sorted cs)
  rcases lt_trichotomy i j with h | h | h
  · exact h
  · subst h
    exact absurd hab (lt_irrefl _)
  · have := hs j i hj hi h
    omega

theorem apply_executor_ordering_witness :
    (applyOrder ⟨⟨["read"], [], [], []⟩, ⟨["svc-a"], [], [], []⟩⟩)[0]? =
      some (.scopeCreate "read") ∧
    (applyOrder ⟨⟨["read"], [], [], []⟩, ⟨["svc-a"], [], [], []⟩⟩)[1]? =
      some (.clientCreate "svc-a") ∧
    (ApplyOp.scopeCreate "read").phase < (ApplyOp.clientCreate "svc-a").phase ∧
    0 < 1 :=
  ⟨rfl, rfl, by decide,
   apply_executor_ordering ⟨⟨["read"], [], [], []⟩, ⟨["svc-a"], [], [], []⟩⟩ 0 1
     (.scopeCreate "read") (.clientCreate "svc-a") rfl rfl (by decide)⟩

/-- A scope record as held in `mockScopes` (mockApi.ts); `appliesTo` is kept
abstract as the list of account-type strings. -/
structure Scope where
  id : String
  name : String
  description : String
  appliesTo : List String
  isActive : Bool
  serviceAccountCount : Nat
  createdAt : String
  updatedAt : String
deriving DecidableEq, Repr

/-- `mockScopes.find(scope => scope.id === id)`. -/
def findScope (id : String) (scopes : List Scope) : Option Scope :=
  scopes.find? fun s => s.id == id

/-- `mockApi.deleteScope` (mockApi.ts lines 711-723): locate the first scope
with the given id (`findIndex`); absent → resolve `false`; found but
`serviceAccountCount > 0` → throw, with the collection untouched; otherwise
splice it out and resolve `true`.  The second component is the state of
`mockScopes` afterwards. -/
def deleteScope (id : String) : List Scope → Except String Bool × List Scope
  | [] => (.ok false, [])
  | s :: rest =>
    if s.id = id then
      if s.serviceAccountCount > 0 then
        (.error "Cannot delete scope that is assigned to service accounts", s :: rest)
      else
        (.ok true, rest)
    else
      let (r, rest') := deleteScope id rest
      (r, s :: rest')

/-- C6: deleting a scope that is still assigned to service accounts throws
and leaves the collection unchanged; deleting an existing unassigned scope
removes exactly that scope and resolves `true`; deleting a non-existent id
resolves `false` with no state change. -/
theorem deleteScope_spec (id : String) (scopes : List Scope) :
    (findScope id scopes = none → deleteScope id scopes = (.ok false, scopes)) ∧
    (∀ s, findScope id scopes = some s → 0 < s.serviceAccountCount →
      deleteScope id scopes =
        (.error "Cannot delete scope that is assigned to service accounts", scopes)) ∧
    (∀ s, findScope id scopes = some s → s.serviceAccountCount = 0 →
      deleteScope id scopes = (.ok true, scopes.eraseP fun t => t.id == id)) := by
  induction scopes with
  | nil =>
    refine ⟨fun _ => rfl, fun s hs => by simp [findScope] at hs,
      fun s hs => by simp [findScope] at hs⟩
  | cons a rest ih =>
    obtain ⟨ih1, ih2, ih3⟩ := ih
    by_cases hid : a.id = id
    · refine ⟨?_, ?_, ?_⟩
      · intro h
        simp [findScope, List.find?_cons, hid] at h
      · intro s hs hpos
        simp [findScope, List.find?_cons, hid] at hs
        subst hs
        simp [deleteScope, hid, Nat.pos_iff_ne_zero.1 hpos]
      · intro s hs hz
        simp [findScope, List.find?_cons, hid] at hs
        subst hs
        simp [deleteScope, List.eraseP_cons, hid, hz]
    · have hfind : findScope id (a :: rest) = findScope id rest := by
        simp [findScope, List.find?_cons, hid]
      refine ⟨?_, ?_, ?_⟩
      · intro h
        rw [hfind] at h
        simp [deleteScope, hid, ih1 h]
      · intro s hs hpos
        rw [hfind] at hs
        simp [deleteScope, hid, ih2 s hs hpos]
      · intro s hs hz
        rw [hfind] at hs
        simp [deleteScope, hid, ih3 s hs hz, List.eraseP_cons]

theorem deleteScope_spec_witness :
    (findScope "9" [⟨"1", "read", "", [], true, 0, "", ""⟩] = none ∧
      deleteScope "9" [⟨"1", "read", "", [], true, 0, "", ""⟩] =
        (.ok false, [⟨"1", "read", "", [], true, 0, "", ""⟩])) ∧
    (findScope "2" [⟨"1", "read", "", [], true, 0, "", ""⟩,
        ⟨"2", "write", "", [], true, 3, "", ""⟩] =
      some ⟨"2", "write", "", [], true, 3, "", ""⟩ ∧
      deleteScope "2" [⟨"1", "read", "", [], true, 0, "", ""⟩,
          ⟨"2", "write", "", [], true, 3, "", ""⟩] =
        (.error "Cannot delete scope that is assigned to service accounts",
          [⟨"1", "read", "", [], true, 0, "", ""⟩,
           ⟨"2", "write", "", [], true, 3, "", ""⟩])) ∧
    (deleteScope "1" [⟨"1", "read", "", [], true, 0, "", ""⟩,
        ⟨"2", "write", "", [], true, 3, "", ""⟩] =
      (.ok true, ([⟨"1", "read", "", [], true, 0, "", ""⟩,
        ⟨"2", "write", "", [], true, 3, "", ""⟩] : List Scope).eraseP
          fun t => t.id == "1")) :=
  ⟨⟨by decide, (deleteScope_spec "9" [⟨"1", "read", "", [], true, 0, "", ""⟩]).1 (by decide)⟩,
   ⟨by decide,
    (deleteScope_spec "2" [⟨"1", "read", "", [], true, 0, "", ""⟩,
        ⟨"2", "write", "", [], true, 3, "", ""⟩]).2.1
      ⟨"2", "write", "", [], true, 3, "", ""⟩ (by decide) (by decide)⟩,
   (deleteScope_spec "1" [⟨"1", "read", "", [], true, 0, "", ""⟩,
        ⟨"2", "write", "", [], true, 3, "", ""⟩]).2.2
      ⟨"1", "read", "", [], true, 0, "", ""⟩ (by decide) (by decide)⟩

/-- One iteration of the `forEach` in `mockApi.bulkDeleteScopes` (mockApi.ts
lines 761-772): locate the first scope with this id (`findIndex`); splice it
out only when it exists and `serviceAccountCount === 0`.  The Boolean reports
whether the `deleted` counter was incremented. -/
def deleteIfUnassigned (id : String) : List Scope → Bool × List Scope
  | [] => (false, [])
  | s :: rest =>
    if s.id = id then
      if s.serviceAccountCount = 0 then (true, rest) else (false, s :: rest)
    else
      let (b, rest') := deleteIfUnassigned id rest
      (b, s :: rest')

/-- `mockApi.bulkDeleteScopes`: iterate over `scopeIds`, accumulating the
`deleted` counter over the evolving collection. -/
def bulkDeleteScopes (scopeIds : List String) (scopes : List Scope) : Nat × List Scope :=
  match scopeIds with
  | [] => (0, scopes)
  | id :: rest =>
    let (b, scopes') := deleteIfUnassigned id scopes
    let (n, final) := bulkDeleteScopes rest scopes'
    ((if b then 1 else 0) + n, final)

lemma deleteIfUnassigned_eq (id : String) (scopes : List Scope)
    (h : (scopes.map Scope.id).Nodup) :
    deleteIfUnassigned id scopes =
      (scopes.any fun s => s.id == id && s.serviceAccountCount == 0,
       scopes.filter fun s => !(s.id == id && s.serviceAccountCount == 0)) := by
  induction scopes with
  | nil => rfl
  | cons a rest ih =>
    simp only [List.map_cons, List.nodup_cons] at h
    obtain ⟨ha, hrest⟩ := h
    by_cases hid : a.id = id
    · subst hid
      have hne : ∀ s ∈ rest, (s.id == a.id) = false := by
        intro s hs
        simp only [beq_eq_false_iff_ne, ne_eq]
        intro he
        exact ha (List.mem_map.2 ⟨s, hs, he⟩)
      have hany : (rest.any fun s => s.id == a.id && s.serviceAccountCount == 0) = false := by
        simp only [List.any_eq_false]
        intro s hs
        simp [hne s hs]
      have hfil : (rest.filter fun s =>
          (!(s.id == a.id) || !(s.serviceAccountCount == 0))) = rest := by
        apply List.filter_eq_self.2
        intro s hs
        simp [hne s hs]
      by_cases hcnt : a.serviceAccountCount = 0
      · have hL : deleteIfUnassigned a.id (a :: rest) = (true, rest) := by
          simp [deleteIfUnassigned, hcnt]
        rw [hL]
        simp [List.any_cons, List.filter_cons, hcnt, hfil, hany]
      · have hL : deleteIfUnassigned a.id (a :: rest) = (false, a :: rest) := by
          simp [deleteIfUnassigned, hcnt]
        rw [hL]
        simp [List.any_cons, List.filter_cons, hcnt, hfil, hany]
    · have hne : (a.id == id) = false := by simp [hid]
      simp [deleteIfUnassigned, hid, ih hrest, hne, List.any_cons, List.filter_cons]

lemma nodup_ids_filter (p : Scope → Bool) (scopes : List Scope)
    (h : (scopes.map Scope.id).Nodup) :
    ((scopes.filter p).map Scope.id).Nodup :=
  ((List.filter_sublist scopes).map Scope.id).nodup h

lemma ifAny_eq_countP (id : String) (q : Scope → Bool) (scopes : List Scope)
    (h : (scopes.map Scope.id).Nodup) :
    (if scopes.any (fun s => s.id == id && q s) then 1 else 0) =
      scopes.countP fun s => s.id == id && q s := by
  induction scopes with
  | nil => rfl
  | cons a rest ih =>
    simp only [List.map_cons, List.nodup_cons] at h
    obtain ⟨ha, hrest⟩ := h
    have hcons : ((a :: rest).countP fun s => s.id == id && q s) =
        (rest.countP fun s => s.id == id && q s)
          + (if (a.id == id && q a) = true then 1 else 0) := by
      simp [List.countP_cons]
    by_cases hQ : (a.id == id && q a) = true
    · obtain ⟨h1, h2⟩ : a.id = id ∧ q a = true := by simpa using hQ
      subst h1
      have hzero : (rest.countP fun s => s.id == a.id && q s) = 0 := by
        apply List.countP_eq_zero.2
        intro s hs
        have hne : s.id ≠ a.id := fun he => ha (List.mem_map.2 ⟨s, hs, he⟩)
        simp [hne]
      have hany : ((a :: rest).any fun s => s.id == a.id && q s) = true := by
        simp [List.any_cons, h2]
      rw [hany, hcons, hzero, if_pos hQ]
      simp
    · have hQ' : (a.id == id && q a) = false := by simpa using hQ
      have hany : ((a :: rest).any fun s => s.id == id && q s) =
          (rest.any fun s => s.id == id && q s) := by
        simp [List.any_cons, hQ']
      rw [hany, hcons, ← ih hrest, hQ']
      simp

lemma countP_or_split (p q : Scope → Bool) (l : List Scope) :
    (l.countP fun a => p a || q a) = l.countP p + l.countP fun a => !p a && q a := by
  induction l with
  | nil => rfl
  | cons a l ih =>
    by_cases hp : p a = true <;> by_cases hq : q a = true <;>
      simp [List.countP_cons, hp, hq, ih] <;> omega

/-- C8: over a collection with distinct scope ids, `bulkDeleteScopes` removes
exactly the listed scopes that exist with `serviceAccountCount = 0`, silently
keeps every other scope, and returns a `deleted` count equal to the number of
scopes actually removed. -/
theorem bulkDeleteScopes_spec (scopeIds : List String) (scopes : List Scope)
    (h : (scopes.map Scope.id).Nodup) :
    bulkDeleteScopes scopeIds scopes =
      ((scopes.filter fun s =>
          decide (s.id ∈ scopeIds ∧ s.serviceAccountCount = 0)).length,
       scopes.filter fun s =>
          decide ¬(s.id ∈ scopeIds ∧ s.serviceAccountCount = 0)) := by
  induction scopeIds generalizing scopes with
  | nil =>
    simp [bulkDeleteScopes, List.filter_eq_self]
  | cons id rest ih =>
    have hdel := deleteIfUnassigned_eq id scopes h
    have hnodup' : (((scopes.filter fun s =>
        !(s.id == id && s.serviceAccountCount == 0)).map Scope.id)).Nodup :=
      nodup_ids_filter _ scopes h
    have hih := ih (scopes.filter fun s => !(s.id == id && s.serviceAccountCount == 0))
      hnodup'
    simp only [bulkDeleteScopes, hdel, hih]
    rw [Prod.mk.injEq]
    refine ⟨?_, ?_⟩
    · rw [ifAny_eq_countP id (fun s => s.serviceAccountCount == 0) scopes h]
      rw [← List.countP_eq_length_filter, ← List.countP_eq_length_filter,
        List.countP_filter]
      have hsplit := countP_or_split (fun s => s.id == id && s.serviceAccountCount == 0)
        (fun s => decide (s.id ∈ rest ∧ s.serviceAccountCount = 0)) scopes
      have hleft : (scopes.countP fun s =>
          (s.id == id && s.serviceAccountCount == 0) ||
            decide (s.id ∈ rest ∧ s.serviceAccountCount = 0)) =
          scopes.countP fun s => decide (s.id ∈ id :: rest ∧ s.serviceAccountCount = 0) := by
        apply List.countP_congr
        intro s _
        by_cases h1 : s.id = id <;> by_cases h2 : s.id ∈ rest <;>
          by_cases h3 : s.serviceAccountCount = 0 <;> simp [h1, h2, h3]
      have hright : (scopes.countP fun s =>
          decide (s.id ∈ rest ∧ s.serviceAccountCount = 0) &&
            !(s.id == id && s.serviceAccountCount == 0)) =
          scopes.countP fun s =>
            !(s.id == id && s.serviceAccountCount == 0) &&
              decide (s.id ∈ rest ∧ s.serviceAccountCount = 0) := by
        apply List.countP_congr
        intro s _
        by_cases h1 : s.id = id <;> by_cases h2 : s.id ∈ rest <;>
          by_cases h3 : s.serviceAccountCount = 0 <;> simp [h1, h2, h3]
      rw [hright]
      omega
    · rw [List.filter_filter]
      apply List.filter_congr
      intro s _
      by_cases h1 : s.id = id <;> by_cases h2 : s.id ∈ rest <;>
        by_cases h3 : s.serviceAccountCount = 0 <;> simp [h1, h2, h3]

theorem bulkDeleteScopes_spec_witness :
    (([⟨"1", "read", "", [], true, 0, "", ""⟩,
       ⟨"2", "write", "", [], true, 2, "", ""⟩,
       ⟨"3", "admin", "", [], false, 0, "", ""⟩] : List Scope).map Scope.id).Nodup ∧
    bulkDeleteScopes ["1", "2", "9"]
      [⟨"1", "read", "", [], true, 0, "", ""⟩,
       ⟨"2", "write", "", [], true, 2, "", ""⟩,
       ⟨"3", "admin", "", [], false, 0, "", ""⟩] =
      ((([⟨"1", "read", "", [], true, 0, "", ""⟩,
          ⟨"2", "write", "", [], true, 2, "", ""⟩,
          ⟨"3", "admin", "", [], false, 0, "", ""⟩] : List Scope).filter fun s =>
            decide (s.id ∈ ["1", "2", "9"] ∧ s.serviceAccountCount = 0)).length,
       ([⟨"1", "read", "", [], true, 0, "", ""⟩,
         ⟨"2", "write", "", [], true, 2, "", ""⟩,
         ⟨"3", "admin", "", [], false, 0, "", ""⟩] : List Scope).filter fun s =>
            decide ¬(s.id ∈ ["1", "2", "9"] ∧ s.serviceAccountCount = 0)) :=
  ⟨by decide,
   bulkDeleteScopes_spec ["1", "2", "9"]
     [⟨"1", "read", "", [], true, 0, "", ""⟩,
      ⟨"2", "write", "", [], true, 2, "", ""⟩,
      ⟨"3", "admin", "", [], false, 0, "", ""⟩] (by decide)⟩

/-- Shared body of `mockApi.bulkActivateScopes` / `mockApi.bulkDeactivateScopes`
(mockApi.ts lines 733-759), one `forEach` iteration: find the first scope with
this id; if it exists and its `isActive` differs from the target, set
`isActive` to the target and stamp `updatedAt`, counting the change. -/
def setActiveFirst (target : Bool) (id now : String) : List Scope → Bool × List Scope
  | [] => (false, [])
  | s :: rest =>
    if s.id = id then
      if s.isActive = target then (false, s :: rest)
      else (true, { s with isActive := target, updatedAt := now } :: rest)
    else
      let (b, rest') := setActiveFirst target id now rest
      (b, s :: rest')

/-- Iterating `setActiveFirst` over the id list, accumulating the `updated`
counter over the evolving collection. -/
def bulkSetActiveScopes (target : Bool) (scopeIds : List String) (now : String)
    (scopes : List Scope) : Nat × List Scope :=
  match scopeIds with
  | [] => (0, scopes)
  | id :: rest =>
    let (b, scopes') := setActiveFirst target id now scopes
    let (n, final) := bulkSetActiveScopes target rest now scopes'
    ((if b then 1 else 0) + n, final)

/-- `mockApi.bulkActivateScopes` (mockApi.ts lines 733-745). -/
def bulkActivateScopes (scopeIds : List String) (now : String)
    (scopes : List Scope) : Nat × List Scope :=
  bulkSetActiveScopes true scopeIds now scopes

/-- `mockApi.bulkDeactivateScopes` (mockApi.ts lines 747-759). -/
def bulkDeactivateScopes (scopeIds : List String) (now : String)
    (scopes : List Scope) : Nat × List Scope :=
  bulkSetActiveScopes false scopeIds now scopes

/-- The per-scope effect of a whole bulk activation/deactivation pass. -/
def setActiveAll (target : Bool) (scopeIds : List String) (now : String)
    (s : Scope) : Scope :=
  if s.id ∈ scopeIds ∧ s.isActive ≠ target then
    { s with isActive := target, updatedAt := now }
  else s

lemma setActiveAll_id (target : Bool) (scopeIds : List String) (now : String)
    (s : Scope) : (setActiveAll target scopeIds now s).id = s.id := by
  unfold setActiveAll
  split <;> rfl

lemma map_eq_self_of {α : Type} (f : α → α) (l : List α) (h : ∀ a ∈ l, f a = a) :
    l.map f = l := by
  induction l with
  | nil => rfl
  | cons a l ih => simp [h a (by simp), ih fun x hx => h x (by simp [hx])]

lemma setActiveFirst_eq (target : Bool) (id now : String) (scopes : List Scope)
    (h : (scopes.map Scope.id).Nodup) :
    setActiveFirst target id now scopes =
      (scopes.any fun s => s.id == id && !(s.isActive == target),
       scopes.map (setActiveAll target [id] now)) := by
  induction scopes with
  | nil => rfl
  | cons a rest ih =>
    simp only [List.map_cons, List.nodup_cons] at h
    obtain ⟨ha, hrest⟩ := h
    by_cases hid : a.id = id
    · subst hid
      have hne : ∀ s ∈ rest, (s.id == a.id) = false := by
        intro s hs
        simp only [beq_eq_false_iff_ne, ne_eq]
        intro he
        exact ha (List.mem_map.2 ⟨s, hs, he⟩)
      have hany : (rest.any fun s => s.id == a.id && !(s.isActive == target)) = false := by
        simp only [List.any_eq_false]
        intro s hs
        simp [hne s hs]
      have hmap : rest.map (setActiveAll target [a.id] now) = rest := by
        apply map_eq_self_of
        intro s hs
        have : s.id ≠ a.id := by simpa using hne s hs
        simp [setActiveAll, this]
      by_cases hact : a.isActive = target
      · have hL : setActiveFirst target a.id now (a :: rest) = (false, a :: rest) := by
          simp [setActiveFirst, hact]
        rw [hL, List.map_cons, hmap, List.any_cons]
        simp [setActiveAll, hact, hany]
      · have hL : setActiveFirst target a.id now (a :: rest) =
            (true, { a with isActive := target, updatedAt := now } :: rest) := by
          simp [setActiveFirst, hact]
        rw [hL, List.map_cons, hmap, List.any_cons]
        simp [setActiveAll, hact, hany]
    · have hne : (a.id == id) = false := by simp [hid]
      have hfix : setActiveAll target [id] now a = a := by
        simp [setActiveAll, hid]
      simp [setActiveFirst, hid, ih hrest, hne, List.any_cons, hfix]

lemma setActiveAll_step (target : Bool) (id : String) (rest : List String)
    (now : String) (s : Scope) :
    setActiveAll target rest now (setActiveAll target [id] now s) =
      setActiveAll target (id :: rest) now s := by
  by_cases h1 : s.id = id <;> by_cases h2 : s.isActive = target <;>
    by_cases h3 : s.id ∈ rest <;>
      simp [setActiveAll, h1, h2, h3]

lemma bulkSetActiveScopes_eq (target : Bool) (scopeIds : List String) (now : String)
    (scopes : List Scope) (h : (scopes.map Scope.id).Nodup) :
    bulkSetActiveScopes target scopeIds now scopes =
      ((scopes.countP fun s => decide (s.id ∈ scopeIds ∧ s.isActive ≠ target)),
       scopes.map (setActiveAll target scopeIds now)) := by
  induction scopeIds generalizing scopes with
  | nil =>
    simp only [bulkSetActiveScopes]
    rw [Prod.mk.injEq]
    refine ⟨by simp, ?_⟩
    rw [map_eq_self_of]
    intro s _
    simp [setActiveAll]
  | cons id rest ih =>
    have hfirst := setActiveFirst_eq target id now scopes h
    have hids : (scopes.map (setActiveAll target [id] now)).map Scope.id =
        scopes.map Scope.id := by
      rw [List.map_map]
      apply List.map_congr_left
      intro s _
      exact setActiveAll_id target [id] now s
    have hnodup' : ((scopes.map (setActiveAll target [id] now)).map Scope.id).Nodup := by
      rw [hids]; exact h
    have hih := ih (scopes.map (setActiveAll target [id] now)) hnodup'
    simp only [bulkSetActiveScopes, hfirst, hih]
    rw [Prod.mk.injEq]
    refine ⟨?_, ?_⟩
    · rw [ifAny_eq_countP id (fun s => !(s.isActive == target)) scopes h,
        List.countP_map]
      have hcomp : (scopes.countP
          ((fun s => decide (s.id ∈ rest ∧ s.isActive ≠ target)) ∘
            setActiveAll target [id] now)) =
          scopes.countP fun s =>
            !(s.id == id && !(s.isActive == target)) &&
              decide (s.id ∈ rest ∧ s.isActive ≠ target) := by
        apply List.countP_congr
        intro s _
        by_cases h1 : s.id = id <;> by_cases h2 : s.isActive = target <;>
          by_cases h3 : s.id ∈ rest <;>
            simp [setActiveAll, h1, h2, h3]
      rw [hcomp]
      have hsplit := countP_or_split (fun s => s.id == id && !(s.isActive == target))
        (fun s => decide (s.id ∈ rest ∧ s.isActive ≠ target)) scopes
      have hfull : (scopes.countP fun s =>
          (s.id == id && !(s.isActive == target)) ||
            decide (s.id ∈ rest ∧ s.isActive ≠ target)) =
          scopes.countP fun s => decide (s.id ∈ id :: rest ∧ s.isActive ≠ target) := by
        apply List.countP_congr
        intro s _
        by_cases h1 : s.id = id <;> by_cases h2 : s.isActive = target <;>
          by_cases h3 : s.id ∈ rest <;> simp [h1, h2, h3]
      omega
    · rw [List.map_map]
      apply List.map_congr_left
      intro s _
      exact setActiveAll_step target id rest now s

lemma bulkSet_parts (target : Bool) (scopeIds : List String) (now now2 : String)
    (scopes : List Scope) (h : (scopes.map Scope.id).Nodup) :
    (∀ s ∈ (bulkSetActiveScopes target scopeIds now scopes).2,
      s.id ∈ scopeIds → s.isActive = target) ∧
    (bulkSetActiveScopes target scopeIds now scopes).1 =
      (scopes.countP fun s => decide (s.id ∈ scopeIds ∧ s.isActive ≠ target)) ∧
    bulkSetActiveScopes target scopeIds now2
        (bulkSetActiveScopes target scopeIds now scopes).2 =
      (0, (bulkSetActiveScopes target scopeIds now scopes).2) := by
  have heq := bulkSetActiveScopes_eq target scopeIds now scopes h
  have hactive : ∀ s ∈ (bulkSetActiveScopes target scopeIds now scopes).2,
      s.id ∈ scopeIds → s.isActive = target := by
    rw [heq]
    intro s hs hmem
    rcases List.mem_map.1 hs with ⟨s0, _, rfl⟩
    rw [setActiveAll_id] at hmem
    by_cases h2 : s0.isActive = target <;> simp [setActiveAll, hmem, h2]
  refine ⟨hactive, by rw [heq], ?_⟩
  have hids2 : ((bulkSetActiveScopes target scopeIds now scopes).2.map Scope.id).Nodup := by
    rw [heq]
    have hmapid : (scopes.map (setActiveAll target scopeIds now)).map Scope.id =
        scopes.map Scope.id := by
      rw [List.map_map]
      apply List.map_congr_left
      intro s _
      exact setActiveAll_id target scopeIds now s
    rw [hmapid]
    exact h
  have heq2 := bulkSetActiveScopes_eq target scopeIds now2
    (bulkSetActiveScopes target scopeIds now scopes).2 hids2
  rw [heq2, Prod.mk.injEq]
  refine ⟨?_, ?_⟩
  · apply List.countP_eq_zero.2
    intro s hs
    simp only [decide_eq_true_eq, not_and, ne_eq]
    intro hmem
    simp [hactive s hs hmem]
  · apply map_eq_self_of
    intro s hs
    have : s.id ∈ scopeIds → s.isActive = target := hactive s hs
    by_cases hmem : s.id ∈ scopeIds
    · simp [setActiveAll, hmem, this hmem]
    · simp [setActiveAll, hmem]

/-- C9: bulk activation/deactivation is idempotent and reports only effective
changes: after `bulkActivateScopes` every listed existing scope is active; the
returned `updated` count equals the number of listed scopes previously
inactive; re-invoking with the same ids updates nothing and leaves the
collection unchanged — and symmetrically for `bulkDeactivateScopes`. -/
theorem bulk_activate_deactivate_spec (scopeIds : List String) (now now2 : String)
    (scopes : List Scope) (h : (scopes.map Scope.id).Nodup) :
    (∀ s ∈ (bulkActivateScopes scopeIds now scopes).2,
      s.id ∈ scopeIds → s.isActive = true) ∧
    (bulkActivateScopes scopeIds now scopes).1 =
      (scopes.countP fun s => decide (s.id ∈ scopeIds ∧ s.isActive = false)) ∧
    bulkActivateScopes scopeIds now2 (bulkActivateScopes scopeIds now scopes).2 =
      (0, (bulkActivateScopes scopeIds now scopes).2) ∧
    (∀ s ∈ (bulkDeactivateScopes scopeIds now scopes).2,
      s.id ∈ scopeIds → s.isActive = false) ∧
    (bulkDeactivateScopes scopeIds now scopes).1 =
      (scopes.countP fun s => decide (s.id ∈ scopeIds ∧ s.isActive = true)) ∧
    bulkDeactivateScopes scopeIds now2 (bulkDeactivateScopes scopeIds now scopes).2 =
      (0, (bulkDeactivateScopes scopeIds now scopes).2) := by
  obtain ⟨a1, a2, a3⟩ := bulkSet_parts true scopeIds now now2 scopes h
  obtain ⟨d1, d2, d3⟩ := bulkSet_parts false scopeIds now now2 scopes h
  simp only [bulkActivateScopes, bulkDeactivateScopes]
  refine ⟨a1, ?_, a3, d1, ?_, d3⟩
  · rw [a2]
    apply List.countP_congr
    intro s _
    by_cases hb : s.isActive <;> simp [hb]
  · rw [d2]
    apply List.countP_congr
    intro s _
    by_cases hb : s.isActive <;> simp [hb]

theorem bulk_activate_deactivate_spec_witness :
    (([⟨"1", "read", "", [], false, 0, "", ""⟩,
       ⟨"2", "write", "", [], true, 1, "", ""⟩] : List Scope).map Scope.id).Nodup ∧
    (bulkActivateScopes ["1", "2"] "t1"
      [⟨"1", "read", "", [], false, 0, "", ""⟩,
       ⟨"2", "write", "", [], true, 1, "", ""⟩]).1 =
      (([⟨"1", "read", "", [], false, 0, "", ""⟩,
         ⟨"2", "write", "", [], true, 1, "", ""⟩] : List Scope).countP fun s =>
           decide (s.id ∈ ["1", "2"] ∧ s.isActive = false)) ∧
    bulkActivateScopes ["1", "2"] "t2"
        (bulkActivateScopes ["1", "2"] "t1"
          [⟨"1", "read", "", [], false, 0, "", ""⟩,
           ⟨"2", "write", "", [], true, 1, "", ""⟩]).2 =
      (0, (bulkActivateScopes ["1", "2"] "t1"
        [⟨"1", "read", "", [], false, 0, "", ""⟩,
         ⟨"2", "write", "", [], true, 1, "", ""⟩]).2) :=
  ⟨by decide,
   (bulk_activate_deactivate_spec ["1", "2"] "t1" "t2"
     [⟨"1", "read", "", [], false, 0, "", ""⟩,
      ⟨"2", "write", "", [], true, 1, "", ""⟩] (by decide)).2.1,
   (bulk_activate_deactivate_spec ["1", "2"] "t1" "t2"
     [⟨"1", "read", "", [], false, 0, "", ""⟩,
      ⟨"2", "write", "", [], true, 1, "", ""⟩] (by decide)).2.2.1⟩

/-- A role as held in `mockRoles` (mockApi.ts); `userCount` is the membership
counter the assignment operations maintain.  It is optional in the source; the
`|| 0` / `|| 1` fallbacks are made explicit through `jsOr`. -/
structure Role where
  id : String
  name : String
  userCount : Int
deriving DecidableEq, Repr

/-- A user as held in `mockUsers`; `roles` is modelled by the list of role ids
it contains (the source stores role object references but consults only their
ids in the operations verified here). -/
structure User where
  id : String
  roles : List String
deriving DecidableEq, Repr

/-- A service account as held in `mockServiceAccounts`, same modelling of
`roles` as for `User`. -/
structure ServiceAccount where
  id : String
  roles : List String
  updatedAt : String
deriving DecidableEq, Repr

/-- The slice of the mock store the role-assignment operations touch. -/
structure MockDb where
  users : List User
  serviceAccounts : List ServiceAccount
  roles : List Role
deriving DecidableEq, Repr

/-- Mutation of the first element matching `p`, as JavaScript's `find`
followed by in-place mutation of the found object. -/
def updateFirst {α : Type} (p : α → Bool) (f : α → α) : List α → List α
  | [] => []
  | a :: l => if p a then f a :: l else a :: updateFirst p f l

/-- JavaScript's `x || d` on numbers: `d` when `x` is `0`, else `x`. -/
def jsOr (x d : Int) : Int :=
  if x = 0 then d else x

/-- `mockApi.assignRoleToUser` (mockApi.ts lines 537-551): both records must
exist; if the user does not already hold the role, push it and increment
`(role.userCount || 0) + 1`; resolve `true` either way. -/
def assignRoleToUser (userId roleId : String) (db : MockDb) : Bool × MockDb :=
  match db.users.find? (fun u => u.id == userId),
      db.roles.find? (fun r => r.id == roleId) with
  | some user, some _ =>
    if user.roles.contains roleId then (true, db)
    else
      (true, { db with
        users := updateFirst (fun u => u.id == userId)
          (fun u => { u with roles := u.roles ++ [roleId] }) db.users
        roles := updateFirst (fun r => r.id == roleId)
          (fun r => { r with userCount := jsOr r.userCount 0 + 1 }) db.roles })
  | _, _ => (false, db)

/-- `mockApi.removeRoleFromUser` (mockApi.ts lines 552-566): both records must
exist; if the user holds the role, splice it out and set
`Math.max(0, (role.userCount || 0) - 1)`; resolve `true` either way. -/
def removeRoleFromUser (userId roleId : String) (db : MockDb) : Bool × MockDb :=
  match db.users.find? (fun u => u.id == userId),
      db.roles.find? (fun r => r.id == roleId) with
  | some user, some _ =>
    if user.roles.contains roleId then
      (true, { db with
        users := updateFirst (fun u => u.id == userId)
          (fun u => { u with roles := u.roles.erase roleId }) db.users
        roles := updateFirst (fun r => r.id == roleId)
          (fun r => { r with userCount := max 0 (jsOr r.userCount 0 - 1) }) db.roles })
    else (true, db)
  | _, _ => (false, db)

/-- `mockApi.assignRoleToServiceAccount` (mockApi.ts lines 638-652): both
records must exist; when the account does not already hold the role, push it,
increment `(role.userCount || 0) + 1`, stamp `updatedAt` and resolve `true`;
resolve `false` when it already holds it. -/
def assignRoleToServiceAccount (serviceAccountId roleId now : String)
    (db : MockDb) : Bool × MockDb :=
  match db.serviceAccounts.find? (fun sa => sa.id == serviceAccountId),
      db.roles.find? (fun r => r.id == roleId) with
  | some sa, some _ =>
    if sa.roles.contains roleId then (false, db)
    else
      (true, { db with
        serviceAccounts := updateFirst (fun sa => sa.id == serviceAccountId)
          (fun sa => { sa with roles := sa.roles ++ [roleId], updatedAt := now })
          db.serviceAccounts
        roles := updateFirst (fun r => r.id == roleId)
          (fun r => { r with userCount := jsOr r.userCount 0 + 1 }) db.roles })
  | _, _ => (false, db)

/-- `mockApi.removeRoleFromServiceAccount` (mockApi.ts lines 654-669): both
records must exist; when the account holds the role, splice it out, set
`Math.max((role.userCount || 1) - 1, 0)`, stamp `updatedAt` and resolve
`true`; resolve `false` otherwise. -/
def removeRoleFromServiceAccount (serviceAccountId roleId now : String)
    (db : MockDb) : Bool × MockDb :=
  match db.serviceAccounts.find? (fun sa => sa.id == serviceAccountId),
      db.roles.find? (fun r => r.id == roleId) with
  | some sa, some _ =>
    if sa.roles.contains roleId then
      (true, { db with
        serviceAccounts := updateFirst (fun sa => sa.id == serviceAccountId)
          (fun sa => { sa with roles := sa.roles.erase roleId, updatedAt := now })
          db.serviceAccounts
        roles := updateFirst (fun r => r.id == roleId)
          (fun r => { r with userCount := max (jsOr r.userCount 1 - 1) 0 }) db.roles })
    else (false, db)
  | _, _ => (false, db)

lemma updateFirst_mem {α : Type} (p : α → Bool) (f : α → α) (l : List α) (a : α)
    (ha : a ∈ updateFirst p f l) : a ∈ l ∨ ∃ b ∈ l, a = f b := by
  induction l with
  | nil => simp [updateFirst] at ha
  | cons x l ih =>
    by_cases hp : p x
    · simp only [updateFirst, if_pos hp, List.mem_cons] at ha
      rcases ha with rfl | ha
      · exact Or.inr ⟨x, by simp, rfl⟩
      · exact Or.inl (by simp [ha])
    · simp only [updateFirst, if_neg hp, List.mem_cons] at ha
      rcases ha with rfl | ha
      · exact Or.inl (by simp)
      · rcases ih ha with h | ⟨b, hb, rfl⟩
        · exact Or.inl (by simp [h])
        · exact Or.inr ⟨b, by simp [hb], rfl⟩

lemma find?_updateFirst {α : Type} (p : α → Bool) (f : α → α) (l : List α)
    (hpf : ∀ a, p (f a) = p a) :
    (updateFirst p f l).find? p = (l.find? p).map f := by
  induction l with
  | nil => rfl
  | cons x l ih =>
    by_cases hp : p x = true
    · rw [updateFirst, if_pos hp, List.find?_cons, List.find?_cons, hp]
      simp [hpf x, hp]
    · have hp' : p x = false := by simpa using hp
      rw [updateFirst, if_neg hp]
      simp [List.find?_cons, hp', ih]

lemma updateFirst_count_nonneg (p : Role → Bool) (g : Role → Role)
    (rs : List Role) (h : ∀ r ∈ rs, 0 ≤ r.userCount)
    (hg : ∀ r, 0 ≤ (g r).userCount) :
    ∀ r ∈ updateFirst p g rs, 0 ≤ r.userCount := by
  intro r hr
  rcases updateFirst_mem p g rs r hr with hmem | ⟨b, _, rfl⟩
  · exact h r hmem
  · exact hg b

/-- C10: role-assignment bookkeeping.  Assigning or removing with a missing
subject or role id resolves `false` with no state change; assigning a role the
subject already holds changes nothing; removal keeps every `userCount`
non-negative, and the removed-from role's counter becomes the floored
decrement `max 0 ((userCount || 0) - 1)`. -/
theorem role_count_bookkeeping (userId saId roleId now : String) (db : MockDb) :
    (db.users.find? (fun x => x.id == userId) = none ∨
        db.roles.find? (fun x => x.id == roleId) = none →
      assignRoleToUser userId roleId db = (false, db) ∧
      removeRoleFromUser userId roleId db = (false, db)) ∧
    (db.serviceAccounts.find? (fun x => x.id == saId) = none ∨
        db.roles.find? (fun x => x.id == roleId) = none →
      assignRoleToServiceAccount saId roleId now db = (false, db) ∧
      removeRoleFromServiceAccount saId roleId now db = (false, db)) ∧
    (∀ u r, db.users.find? (fun x => x.id == userId) = some u →
      db.roles.find? (fun x => x.id == roleId) = some r →
      u.roles.contains roleId = true →
      assignRoleToUser userId roleId db = (true, db)) ∧
    (∀ a r, db.serviceAccounts.find? (fun x => x.id == saId) = some a →
      db.roles.find? (fun x => x.id == roleId) = some r →
      a.roles.contains roleId = true →
      assignRoleToServiceAccount saId roleId now db = (false, db)) ∧
    ((∀ r ∈ db.roles, 0 ≤ r.userCount) →
      (∀ r ∈ (removeRoleFromUser userId roleId db).2.roles, 0 ≤ r.userCount) ∧
      (∀ r ∈ (removeRoleFromServiceAccount saId roleId now db).2.roles,
        0 ≤ r.userCount)) ∧
    (∀ u r, db.users.find? (fun x => x.id == userId) = some u →
      u.roles.contains roleId = true →
      db.roles.find? (fun x => x.id == roleId) = some r →
      (removeRoleFromUser userId roleId db).2.roles.find? (fun x => x.id == roleId) =
        some { r with userCount := max 0 (jsOr r.userCount 0 - 1) }) := by
  refine ⟨?_, ?_, ?_, ?_, ?_, ?_⟩
  · intro h
    rcases h with h | h
    · constructor
      · unfold assignRoleToUser
        rw [h]
      · unfold removeRoleFromUser
        rw [h]
    · constructor
      · unfold assignRoleToUser
        rw [h]
        cases db.users.find? fun x => x.id == userId <;> rfl
      · unfold removeRoleFromUser
        rw [h]
        cases db.users.find? fun x => x.id == userId <;> rfl
  · intro h
    rcases h with h | h
    · constructor
      · unfold assignRoleToServiceAccount
        rw [h]
      · unfold removeRoleFromServiceAccount
        rw [h]
    · constructor
      · unfold assignRoleToServiceAccount
        rw [h]
        cases db.serviceAccounts.find? fun x => x.id == saId <;> rfl
      · unfold removeRoleFromServiceAccount
        rw [h]
        cases db.serviceAccounts.find? fun x => x.id == saId <;> rfl
  · intro u r hu hr hc
    simp only [assignRoleToUser, hu, hr]
    rw [if_pos hc]
  · intro a r ha hr hc
    simp only [assignRoleToServiceAccount, ha, hr]
    rw [if_pos hc]
  · intro hpos
    constructor
    · cases hu : db.users.find? fun x => x.id == userId with
      | none =>
        unfold removeRoleFromUser
        rw [hu]
        exact hpos
      | some u =>
        cases hr : db.roles.find? fun x => x.id == roleId with
        | none =>
          unfold removeRoleFromUser
          rw [hu, hr]
          exact hpos
        | some r =>
          simp only [removeRoleFromUser, hu, hr]
          by_cases hc : u.roles.contains roleId = true
          · rw [if_pos hc]
            exact updateFirst_count_nonneg _ _ _ hpos fun r' => le_max_left _ _
          · rw [if_neg hc]
            exact hpos
    · cases ha : db.serviceAccounts.find? fun x => x.id == saId with
      | none =>
        unfold removeRoleFromServiceAccount
        rw [ha]
        exact hpos
      | some a =>
        cases hr : db.roles.find? fun x => x.id == roleId with
        | none =>
          unfold removeRoleFromServiceAccount
          rw [ha, hr]
          exact hpos
        | some r =>
          simp only [removeRoleFromServiceAccount, ha, hr]
          by_cases hc : a.roles.contains roleId = true
          · rw [if_pos hc]
            exact updateFirst_count_nonneg _ _ _ hpos fun r' => le_max_right _ _
          · rw [if_neg hc]
            exact hpos
  · intro u r hu hc hr
    simp only [removeRoleFromUser, hu, hr]
    rw [if_pos hc]
    have hthis := find?_updateFirst (fun x => x.id == roleId)
      (fun x => { x with userCount := max 0 (jsOr x.userCount 0 - 1) }) db.roles
      (fun x => rfl)
    rw [hr] at hthis
    exact hthis

/-- A small concrete store used to exercise the role-assignment operations. -/
def sampleDb : MockDb :=
  { users := [⟨"u1", ["r1"]⟩]
    serviceAccounts := [⟨"sa1", ["r1"], "t0"⟩]
    roles := [⟨"r1", "admin", 1⟩] }

theorem role_count_bookkeeping_witness :
    assignRoleToUser "u9" "r1" sampleDb = (false, sampleDb) ∧
    removeRoleFromServiceAccount "sa1" "r9" "t1" sampleDb = (false, sampleDb) ∧
    assignRoleToUser "u1" "r1" sampleDb = (true, sampleDb) ∧
    assignRoleToServiceAccount "sa1" "r1" "t1" sampleDb = (false, sampleDb) ∧
    (∀ r ∈ (removeRoleFromUser "u1" "r1" sampleDb).2.roles, 0 ≤ r.userCount) ∧
    (removeRoleFromUser "u1" "r1" sampleDb).2.roles.find? (fun x => x.id == "r1") =
      some { id := "r1", name := "admin", userCount := max 0 (jsOr 1 0 - 1) } :=
  ⟨((role_count_bookkeeping "u9" "sa1" "r1" "t1" sampleDb).1 (Or.inl (by decide))).1,
   ((role_count_bookkeeping "u1" "sa1" "r9" "t1" sampleDb).2.1 (Or.inr (by decide))).2,
   (role_count_bookkeeping "u1" "sa1" "r1" "t1" sampleDb).2.2.1
     ⟨"u1", ["r1"]⟩ ⟨"r1", "admin", 1⟩ (by decide) (by decide) (by decide),
   (role_count_bookkeeping "u1" "sa1" "r1" "t1" sampleDb).2.2.2.1
     ⟨"sa1", ["r1"], "t0"⟩ ⟨"r1", "admin", 1⟩ (by decide) (by decide) (by decide),
   ((role_count_bookkeeping "u1" "sa1" "r1" "t1" sampleDb).2.2.2.2.1 (by decide)).1,
   (role_count_bookkeeping "u1" "sa1" "r1" "t1" sampleDb).2.2.2.2.2
     ⟨"u1", ["r1"]⟩ ⟨"r1", "admin", 1⟩ (by decide) (by decide) (by decide)⟩
